import Mathlib

/-!
Verification of the preview-secret core of `sanity-plugin-easy-preview`
(`src/index.ts`) against its natural-language specification.

The TypeScript source is shallowly embedded: documents are modelled by a
JSON-like inductive type, JavaScript truthiness is made explicit, the
asynchronous effects (dataset persist, dataset delete for cleanup) are
modelled by `Except`-valued inputs, and the orchestrator `handlePreview`
is a pure function from its inputs and effect outcomes to the ordered
list of observable events it performs.
-/

namespace EasyPreview

/-- JSON-like values, modelling the shape of Sanity documents
(`SanityDocument` is an arbitrary object). Numbers are modelled as
integers (the claims only use integer examples). -/
inductive Json where
  | str (s : String)
  | num (n : Int)
  | bool (b : Bool)
  | null
  | arr (xs : List Json)
  | obj (fields : List (String × Json))

/-- JavaScript truthiness of a value. -/
def Json.truthy : Json → Bool
  | .str s => !(s == "")
  | .num n => !(n == 0)
  | .bool b => b
  | .null => false
  | .arr _ => true
  | .obj _ => true

/-- `typeof value === 'object'` in JavaScript: objects, arrays and `null`. -/
def Json.isObjectLike : Json → Bool
  | .obj _ => true
  | .arr _ => true
  | .null => true
  | _ => false

/-- `part in value` for our model: own keys of objects; for arrays the
numeric indices and `length`. -/
def Json.hasKey : Json → String → Bool
  | .obj fields, k => fields.any (fun f => f.1 == k)
  | .arr xs, k => k == "length" || (List.range xs.length).any (fun i => toString i == k)
  | _, _ => false

/-- `value[part]` for our model (only meaningful when `hasKey` holds). -/
def Json.getKey : Json → String → Json
  | .obj fields, k =>
    match fields.find? (fun f => f.1 == k) with
    | some f => f.2
    | none => .null
  | .arr xs, k =>
    match (List.range xs.length).find? (fun i => toString i == k) with
    | some i => xs.getD i .null
    | none => if k == "length" then .num xs.length else .null
  | _, _ => .null

/-- JavaScript `path.split('.')` on the character list: split at every
`.`, keeping empty segments, with `[""]` for the empty string. -/
def splitCharsOnDot : List Char → List (List Char)
  | [] => [[]]
  | c :: rest =>
    if c == '.' then [] :: splitCharsOnDot rest
    else
      match splitCharsOnDot rest with
      | [] => [[c]]
      | h :: t => (c :: h) :: t

/-- JavaScript `path.split('.')`. -/
def splitDots (path : String) : List String :=
  (splitCharsOnDot path.toList).map String.mk

/-- The `for (const part of parts)` loop of `getSlugValue`
(`src/index.ts` lines 68-74): descend while the current value is a
truthy object-like container holding the segment, else fail. -/
def walkPath : List String → Json → Option Json
  | [], v => some v
  | p :: rest, v =>
    if v.truthy && v.isObjectLike && v.hasKey p then walkPath rest (v.getKey p)
    else none

/-- `getSlugValue(doc, path)` (`src/index.ts` lines 61-77): `null` on an
absent document or empty path, else walk the dot-separated path and
return the final value only when it is a string. -/
def getSlugValue (doc : Option Json) (path : String) : Option String :=
  match doc with
  | none => none
  | some d =>
    if path == "" then none
    else
      match walkPath (splitDots path) d with
      | some (.str s) => some s
      | _ => none

/-! ## Secret generator (`generateUrlSecret`, `src/index.ts` lines 40-56) -/

/-- Lowercase hex digit, as produced by `toString(16)` in JavaScript. -/
def hexDigitChar (n : Nat) : Char := "0123456789abcdef".toList.getD n 'x'

/-- The hex accumulation loop: each byte of the `Uint8Array` (values are
below 256) contributes `toString(16).padStart(2, '0')`, i.e. exactly two
lowercase hex digits. -/
def bytesToHex : List Nat → List Char
  | [] => []
  | b :: rest => hexDigitChar (b / 16) :: hexDigitChar (b % 16) :: bytesToHex rest

/-- The standard base64 alphabet used by `btoa`. -/
def base64AlphabetChars : List Char :=
  "ABCDEFGHIJKLMNOPQRSTUVWXYZabcdefghijklmnopqrstuvwxyz0123456789+/".toList

def b64char (n : Nat) : Char := base64AlphabetChars.getD n '?'

/-- `btoa`'s base64 encoding of a byte list: groups of three bytes become
four alphabet characters, a final group of one or two bytes is padded
with `=`. -/
def base64Chunks : List Nat → List Char
  | [] => []
  | [b1] => [b64char (b1 / 4), b64char (b1 % 4 * 16), '=', '=']
  | [b1, b2] => [b64char (b1 / 4), b64char (b1 % 4 * 16 + b2 / 16), b64char (b2 % 16 * 4), '=']
  | b1 :: b2 :: b3 :: rest =>
    b64char (b1 / 4) :: b64char (b1 % 4 * 16 + b2 / 16) ::
      b64char (b2 % 16 * 4 + b3 / 64) :: b64char (b3 % 64) :: base64Chunks rest

/-- `.replace(/\+/g, '-')` applied characterwise. -/
def replacePlus (c : Char) : Char := if c == '+' then '-' else c

/-- `.replace(/\//g, '_')` applied characterwise. -/
def replaceSlash (c : Char) : Char := if c == '/' then '_' else c

/-- `.replace(/[=]+$/, '')`: drop the trailing run of `=` characters. -/
def stripTrailingEq (l : List Char) : List Char :=
  (l.reverse.dropWhile (fun c => c == '=')).reverse

/-- Base-36 digit, as produced by `toString(36)` in JavaScript. -/
def base36Char (n : Nat) : Char := "0123456789abcdefghijklmnopqrstuvwxyz".toList.getD n 'x'

/-- One `Math.random().toString(36).substring(2, 15)` fragment, modelled
from the fractional base-36 digits of the pseudo-random number: the
substring keeps at most 13 of them. -/
def mathRandomFrag (digits : List Nat) : String :=
  String.mk ((digits.take 13).map base36Char)

/-- `generateUrlSecret()` (`src/index.ts` lines 40-56). The randomness is
made explicit: `bytes` are the 16 bytes from `crypto.getRandomValues`,
`f1`/`f2` the base-36 digit streams of the two `Math.random()` calls of
the no-crypto fallback. The crypto path hex-encodes the bytes, base64
encodes the hex string's character codes via `btoa`, makes the result
URL-safe (`+`→`-`, `/`→`_`) and strips trailing `=`. -/
def generateUrlSecret (hasCrypto : Bool) (bytes : List Nat) (f1 f2 : List Nat) : String :=
  if hasCrypto then
    String.mk
      (stripTrailingEq
        (((base64Chunks ((bytesToHex bytes).map Char.toNat)).map replacePlus).map replaceSlash))
  else
    mathRandomFrag f1 ++ mathRandomFrag f2

/-! ## Cleanup of expired secrets (`cleanupExpiredSecrets`, lines 82-91) -/

/-- A record in the dataset, as far as the cleanup query observes it:
its `_type` discriminator (field `rtype` here) and its `_updatedAt`
timestamp in seconds (field `updatedAt`). -/
structure DatasetRecord where
  rtype : String
  updatedAt : Int
deriving DecidableEq, Repr

/-- The GROQ filter of the cleanup query
`*[_type == "sanity.previewUrlSecret" && dateTime(_updatedAt) <= dateTime(now()) - 3600]`. -/
def previewSecretExpired (now : Int) (r : DatasetRecord) : Bool :=
  r.rtype == "sanity.previewUrlSecret" && r.updatedAt ≤ now - 3600

/-- The dataset-side effect of `client.delete({query})`: the records
matching the filter are deleted, the others remain. Returns
`(deleted, remaining)`. -/
def runCleanupQuery (now : Int) (records : List DatasetRecord) :
    List DatasetRecord × List DatasetRecord :=
  (records.filter (previewSecretExpired now),
   records.filter (fun r => !previewSecretExpired now r))

/-- `cleanupExpiredSecrets(client)` (`src/index.ts` lines 82-91): the
`try/catch` around the delete. A failing delete is caught and turned
into a `console.warn` log line; the function itself always resolves.
The result carries the list of warning log lines. -/
def cleanupExpiredSecrets (deleteOutcome : Except String Unit) : Except String (List String) :=
  match deleteOutcome with
  | .ok _ => .ok []
  | .error e => .ok ["Failed to cleanup expired preview secrets: " ++ e]

/-! ## WHATWG URL model (the platform `URL` / `URLSearchParams` API used
by lines 213-218; an external collaborator, modelled for origin-only
bases and absolute-path routes as used by the plugin) -/

/-- Characters serialized verbatim by `application/x-www-form-urlencoded`
(the `URLSearchParams` serializer). -/
def isFormSafeChar (c : Char) : Bool :=
  c.isAlphanum || c == '*' || c == '-' || c == '.' || c == '_'

def hexUpperChar (n : Nat) : Char := "0123456789ABCDEF".toList.getD n 'X'

/-- UTF-8 byte sequence of a character. -/
def utf8Bytes (c : Char) : List Nat :=
  let n := c.toNat
  if n < 128 then [n]
  else if n < 2048 then [192 + n / 64, 128 + n % 64]
  else if n < 65536 then [224 + n / 4096, 128 + n / 64 % 64, 128 + n % 64]
  else [240 + n / 262144, 128 + n / 4096 % 64, 128 + n / 64 % 64, 128 + n % 64]

def percentEncodeByte (b : Nat) : List Char :=
  ['%', hexUpperChar (b / 16), hexUpperChar (b % 16)]

/-- Form-urlencoding of one character: safe characters pass through,
space becomes `+`, everything else is percent-encoded bytewise. -/
def formEncodeChar (c : Char) : List Char :=
  if isFormSafeChar c then [c]
  else if c == ' ' then ['+']
  else (utf8Bytes c).foldr (fun b acc => percentEncodeByte b ++ acc) []

def formEncode (s : String) : String :=
  String.mk (s.toList.foldr (fun c acc => formEncodeChar c ++ acc) [])

/-- Split a character list at the first occurrence of `sep`, returning
the parts before and after it. -/
def splitAtFirstSub (sep : List Char) : List Char → Option (List Char × List Char)
  | [] => none
  | c :: rest =>
    if sep.isPrefixOf (c :: rest) then some ([], (c :: rest).drop sep.length)
    else
      match splitAtFirstSub sep rest with
      | some (pre, post) => some (c :: pre, post)
      | none => none

/-- The origin `scheme://host[:port]` of a base URL string: everything
up to the first `/` after the `://` separator. -/
def urlOrigin (base : String) : String :=
  match splitAtFirstSub "://".toList base.toList with
  | some (scheme, rest) =>
    String.mk (scheme ++ "://".toList ++ rest.takeWhile (fun c => !(c == '/')))
  | none => base

def startsWithSlash (s : String) : Bool :=
  match s.toList with
  | c :: _ => c == '/'
  | [] => false

/-- `new URL(route, base)` endpoint resolution: an absolute-path route
replaces the base's path; otherwise (not exercised by the plugin, which
uses routes like `/api/draft`) a crude relative join stands in. -/
def resolveUrl (base route : String) : String :=
  if startsWithSlash route then urlOrigin base ++ route
  else if route == "" then base
  else base ++ "/" ++ route

/-- A `URL` object: the resolved endpoint plus its search parameters in
insertion order. -/
structure UrlState where
  endpoint : String
  params : List (String × String)
deriving DecidableEq, Repr

def newURL (route base : String) : UrlState := ⟨resolveUrl base route, []⟩

/-- `url.searchParams.set(k, v)`: replace an existing parameter of that
name, else append. -/
def searchParamsSet (u : UrlState) (k v : String) : UrlState :=
  if u.params.any (fun p => p.1 == k) then
    ⟨u.endpoint, u.params.map (fun p => if p.1 == k then (k, v) else p)⟩
  else
    ⟨u.endpoint, u.params ++ [(k, v)]⟩

/-- `url.toString()`: endpoint plus the form-urlencoded query string. -/
def urlToString (u : UrlState) : String :=
  if u.params.isEmpty then u.endpoint
  else
    u.endpoint ++ "?" ++
      String.intercalate "&" (u.params.map (fun p => formEncode p.1 ++ "=" ++ formEncode p.2))

/-- The URL construction of `handlePreview` (`src/index.ts` lines
212-218): resolve the route against the base, set the secret parameter,
build the pathname from the resolved prefix and the slug, set the
pathname parameter. -/
def buildPreviewUrl (previewUrl draftRoute secret urlPfx slug : String) : UrlState :=
  let url := newURL draftRoute previewUrl
  let url := searchParamsSet url "sanity-preview-secret" secret
  let pathname := if !(urlPfx == "") then urlPfx ++ "/" ++ slug else "/" ++ slug
  searchParamsSet url "sanity-preview-pathname" pathname

/-! ## Configuration and the preview orchestrator -/

/-- The `urlPrefix` configuration value: a fixed string or a function of
the document (source field `urlPrefix` of `PreviewTypeConfig`). -/
inductive UrlPfxCfg where
  | str (s : String)
  | fn (f : Json → String)

/-- `PreviewTypeConfig` (source field names `type`, `urlPrefix`,
`slugField`). -/
structure PreviewTypeConfig where
  type' : String
  urlPfx : Option UrlPfxCfg
  slugField : Option String

/-- The `typeConfigMap` lookup. The map is built by `types.forEach(set)`,
so a later entry with the same `type` overwrites an earlier one: lookup
finds the last matching entry. -/
def lookupTypeConfig (cfgs : List PreviewTypeConfig) (t : String) : Option PreviewTypeConfig :=
  cfgs.reverse.find? (fun c => c.type' == t)

/-- JavaScript truthiness of an optional document (`undefined` is falsy). -/
def jsTruthyOpt : Option Json → Bool
  | none => false
  | some j => j.truthy

/-- JavaScript `a || b` on optional documents. -/
def jsOr (a b : Option Json) : Option Json := if jsTruthyOpt a then a else b

/-- JavaScript `a || b` where `a` is an optional string (both `undefined`
and `''` are falsy). -/
def jsStrOr (a : Option String) (b : String) : String :=
  match a with
  | some s => if s == "" then b else s
  | none => b

/-- The `urlPrefix` resolution of `handlePreview` (lines 203-210): empty
when unset (or falsy), the string verbatim, or the function applied to
the document. -/
def resolveUrlPfx (cfg : PreviewTypeConfig) (document : Json) : String :=
  match cfg.urlPfx with
  | none => ""
  | some (.str s) => s
  | some (.fn f) => f document

/-- The secret record written by `handlePreview` (lines 184-190; source
field names `_id`, `_type`, `secret`, `source`, `studioUrl`). -/
structure SecretDoc where
  sid : String
  stype : String
  secret : String
  source : String
  studioUrl : String
deriving DecidableEq, Repr

/-- The observable events of one `handlePreview` run, in program order. -/
inductive Event where
  | toast (status title description : String)
  | slugResolve (path : String) (result : Option String)
  | generateSecret (secret : String)
  | persist (doc : SecretDoc)
  | cleanupDispatch
  | urlBuilt (u : UrlState)
  | windowOpen (url : String)
deriving DecidableEq, Repr

def Event.isPersist : Event → Bool
  | .persist _ => true
  | _ => false

def Event.isSlugResolve : Event → Bool
  | .slugResolve _ _ => true
  | _ => false

def Event.isGenerateSecret : Event → Bool
  | .generateSecret _ => true
  | _ => false

def Event.isCleanupDispatch : Event → Bool
  | .cleanupDispatch => true
  | _ => false

def Event.isUrlBuilt : Event → Bool
  | .urlBuilt _ => true
  | _ => false

def Event.isWindowOpen : Event → Bool
  | .windowOpen _ => true
  | _ => false

/-- Plugin-level configuration seen by `handlePreview`: the type map
input, the global `slugField` of the config, and the resolved
`previewUrl` / `draftRoute`. -/
structure HandleEnv where
  typeConfigs : List PreviewTypeConfig
  configSlugField : Option String
  previewUrl : String
  draftRoute : String

/-- The document-action props destructured in `PreviewAction`:
`{id, type, draft, published}`. -/
structure HandleProps where
  id : String
  docType : String
  draft : Option Json
  published : Option Json

/-- Outcomes of the external effects and randomness consumed by one run:
the persist transaction result, the cleanup delete result (dispatched,
never awaited), the random bytes / fallback digits for the secret, the
generated uuid, and `window.location.origin`. -/
structure HandleEffects where
  persistResult : Except String Unit
  cleanupDeleteResult : Except String Unit
  hasCrypto : Bool
  secretBytes : List Nat
  frag1 : List Nat
  frag2 : List Nat
  secretId : String
  studioOrigin : String

/-- `handlePreview` (`src/index.ts` lines 144-237) as the ordered list
of observable events of one run. The outer `try/catch` is modelled on
the one fallible awaited step, the persist commit: its failure jumps to
the catch branch, which reports the error toast. -/
def handlePreview (env : HandleEnv) (props : HandleProps) (fx : HandleEffects) : List Event :=
  match lookupTypeConfig env.typeConfigs props.docType with
  | none =>
    [.toast "error" "Preview not configured"
      ("No preview configuration found for document type \"" ++ props.docType ++ "\"")]
  | some typeConfig =>
    match jsOr props.draft props.published with
    | none => [.toast "error" "No document found" "Cannot preview: document not found"]
    | some document =>
      if !document.truthy then
        [.toast "error" "No document found" "Cannot preview: document not found"]
      else
        let slugField := jsStrOr typeConfig.slugField (jsStrOr env.configSlugField "slug.current")
        let slug := getSlugValue (some document) slugField
        match slug with
        | none =>
          [.slugResolve slugField slug,
           .toast "error" "Missing slug" ("Document missing required field: " ++ slugField)]
        | some s =>
          if s == "" then
            [.slugResolve slugField slug,
             .toast "error" "Missing slug" ("Document missing required field: " ++ slugField)]
          else
            let secret := generateUrlSecret fx.hasCrypto fx.secretBytes fx.frag1 fx.frag2
            let secretDoc : SecretDoc :=
              ⟨"drafts." ++ fx.secretId, "sanity.previewUrlSecret", secret, props.id,
               fx.studioOrigin⟩
            match fx.persistResult with
            | .error e =>
              [.slugResolve slugField slug, .generateSecret secret, .persist secretDoc,
               .toast "error" "Preview failed" e]
            | .ok _ =>
              let urlPfx := resolveUrlPfx typeConfig document
              let url := buildPreviewUrl env.previewUrl env.draftRoute secret urlPfx s
              [.slugResolve slugField slug, .generateSecret secret, .persist secretDoc,
               .cleanupDispatch, .urlBuilt url, .windowOpen (urlToString url),
               .toast "success" "Preview opened" "Opening preview in new tab..."]

/-- What the document action renders. -/
structure ActionDescriptor where
  label : String
  disabled : Bool
deriving DecidableEq, Repr

/-- The render decision of `PreviewAction` (`src/index.ts` lines
239-249): `null` for an unconfigured type, else the action descriptor
with `disabled: !draft && !published`. -/
def PreviewAction (cfgs : List PreviewTypeConfig) (docType : String)
    (draft published : Option Json) : Option ActionDescriptor :=
  if (lookupTypeConfig cfgs docType).isSome then
    some ⟨"Preview", !jsTruthyOpt draft && !jsTruthyOpt published⟩
  else none

/-- URL-safe output characters: alphanumerics plus `-` and `_`. -/
def isUrlSafeChar (c : Char) : Bool := c.isAlphanum || c == '-' || c == '_'

/-! ## Shared sample inputs for concrete runs -/

def sampleEnv : HandleEnv :=
  ⟨[⟨"page", some (.str "/blog"), none⟩], none, "http://localhost:3000", "/api/draft"⟩

def sampleDoc : Json := Json.obj [("slug", Json.obj [("current", Json.str "hello")])]

def sampleProps : HandleProps := ⟨"doc1", "page", some sampleDoc, none⟩

def samplePropsNoCfg : HandleProps := ⟨"doc1", "blogPost", some sampleDoc, none⟩

def sampleFxOk : HandleEffects :=
  ⟨.ok (), .ok (), false, [], [10, 11], [12], "uuid1", "http://studio"⟩

def sampleFxErr : HandleEffects :=
  ⟨.error "boom", .ok (), false, [], [10, 11], [12], "uuid1", "http://studio"⟩

/-! ## Trace shape lemma for the orchestrator -/

/-- Every `handlePreview` run produces one of five traces: the
unconfigured-type toast, the missing-document toast, the missing-slug
report, the failed-persist report, or the full success trace. -/
theorem handlePreview_shapes (env : HandleEnv) (props : HandleProps) (fx : HandleEffects) :
    (∃ d, handlePreview env props fx = [Event.toast "error" "Preview not configured" d]) ∨
    (handlePreview env props fx =
      [Event.toast "error" "No document found" "Cannot preview: document not found"]) ∨
    (∃ sf r, handlePreview env props fx =
      [Event.slugResolve sf r,
       Event.toast "error" "Missing slug" ("Document missing required field: " ++ sf)]) ∨
    (∃ sf r sd e, fx.persistResult = Except.error e ∧
      handlePreview env props fx =
        [Event.slugResolve sf r, Event.generateSecret sd.secret, Event.persist sd,
         Event.toast "error" "Preview failed" e]) ∨
    (∃ sf r sd u pn, fx.persistResult = Except.ok () ∧
      u.params = [("sanity-preview-secret", sd.secret), ("sanity-preview-pathname", pn)] ∧
      handlePreview env props fx =
        [Event.slugResolve sf r, Event.generateSecret sd.secret, Event.persist sd,
         Event.cleanupDispatch, Event.urlBuilt u, Event.windowOpen (urlToString u),
         Event.toast "success" "Preview opened" "Opening preview in new tab..."]) := by
  have h : handlePreview env props fx = handlePreview env props fx := rfl
  conv at h => rhs; unfold handlePreview
  dsimp only [] at h
  split at h
  · exact Or.inl ⟨_, h⟩
  · split at h
    · exact Or.inr (Or.inl h)
    · split at h
      · exact Or.inr (Or.inl h)
      · split at h
        · exact Or.inr (Or.inr (Or.inl ⟨_, _, h⟩))
        · split at h
          · exact Or.inr (Or.inr (Or.inl ⟨_, _, h⟩))
          · split at h
            case _ e heq =>
              exact Or.inr (Or.inr (Or.inr (Or.inl ⟨_, _,
                ⟨"drafts." ++ fx.secretId, "sanity.previewUrlSecret",
                  generateUrlSecret fx.hasCrypto fx.secretBytes fx.frag1 fx.frag2,
                  props.id, fx.studioOrigin⟩, e, heq, h⟩)))
            case _ u heq =>
              cases u
              exact Or.inr (Or.inr (Or.inr (Or.inr ⟨_, _,
                ⟨"drafts." ++ fx.secretId, "sanity.previewUrlSecret",
                  generateUrlSecret fx.hasCrypto fx.secretBytes fx.frag1 fx.frag2,
                  props.id, fx.studioOrigin⟩, _, _, heq, rfl, h⟩)))

/-! ## Claims -/

/-- C4: the cleanup sweep deletes exactly the records whose type
discriminator is `sanity.previewUrlSecret` and whose `_updatedAt` is at
least 3600 seconds in the past, with an inclusive-delete boundary at
exactly 3600 seconds: a record 3601 seconds old is deleted, one 3599
seconds old is retained, and one exactly 3600 seconds old is deleted. -/
theorem claim_C4_cleanup_boundary :
    (∀ (now : Int) (records : List DatasetRecord) (r : DatasetRecord),
      (r ∈ (runCleanupQuery now records).1 ↔
        r ∈ records ∧ r.rtype = "sanity.previewUrlSecret" ∧ 3600 ≤ now - r.updatedAt) ∧
      (r ∈ (runCleanupQuery now records).2 ↔
        r ∈ records ∧ ¬(r.rtype = "sanity.previewUrlSecret" ∧ 3600 ≤ now - r.updatedAt))) ∧
    previewSecretExpired 1000000 ⟨"sanity.previewUrlSecret", 1000000 - 3601⟩ = true ∧
    previewSecretExpired 1000000 ⟨"sanity.previewUrlSecret", 1000000 - 3599⟩ = false ∧
    previewSecretExpired 1000000 ⟨"sanity.previewUrlSecret", 1000000 - 3600⟩ = true := by
  refine ⟨?_, by decide, by decide, by decide⟩
  intro now records r
  constructor
  · simp only [runCleanupQuery, List.mem_filter, previewSecretExpired, Bool.and_eq_true,
      beq_iff_eq, decide_eq_true_eq]
    constructor
    · rintro ⟨h1, h2, h3⟩; exact ⟨h1, h2, by omega⟩
    · rintro ⟨h1, h2, h3⟩; exact ⟨h1, h2, by omega⟩
  · simp only [runCleanupQuery, List.mem_filter, previewSecretExpired, Bool.not_eq_true',
      Bool.and_eq_false_iff, beq_eq_false_iff_ne, ne_eq, decide_eq_false_iff_not, not_and,
      not_le]
    constructor
    · rintro ⟨h1, h2⟩
      refine ⟨h1, ?_⟩
      rcases h2 with h | h
      · intro ht; exact absurd ht h
      · intro _; omega
    · rintro ⟨h1, h2⟩
      refine ⟨h1, ?_⟩
      by_cases ht : r.rtype = "sanity.previewUrlSecret"
      · right; have := h2 ht; omega
      · left; exact ht

/-- C8: `cleanupExpiredSecrets` never propagates a failure: every delete
outcome yields a resolved result, a failing delete only produces a
warning log line, and the outcome of the cleanup delete is invisible to
the main `handlePreview` flow. -/
theorem claim_C8_cleanup_never_fails :
    ∀ (o : Except String Unit) (env : HandleEnv) (props : HandleProps)
      (fx : HandleEffects) (r : Except String Unit) (e : String),
    (∃ logs, cleanupExpiredSecrets o = Except.ok logs) ∧
    cleanupExpiredSecrets (Except.error e) =
      Except.ok ["Failed to cleanup expired preview secrets: " ++ e] ∧
    handlePreview env props { fx with cleanupDeleteResult := r } = handlePreview env props fx := by
  intro o env props fx r e
  refine ⟨?_, rfl, ?_⟩
  · cases o <;> exact ⟨_, rfl⟩
  · cases fx; rfl

/-- C5 counterexample: for a configured type with neither draft nor
published document, `PreviewAction` still returns the action (in a
disabled state) instead of being absent entirely, contradicting the
claim that the action is offered only if a document exists. -/
theorem claim_C5_counterexample :
    PreviewAction [⟨"page", none, none⟩] "page" none none =
      some { label := "Preview", disabled := true } ∧
    ¬PreviewAction [⟨"page", none, none⟩] "page" none none = none := by
  constructor
  · rfl
  · intro h; cases h

/-- C5 (amended): the preview action is offered exactly when the
requested type has a configuration entry (absent entirely otherwise,
with no error toast); when offered it is disabled exactly when neither
a draft nor a published document exists. -/
theorem claim_C5_amended_action_offer :
    ∀ (cfgs : List PreviewTypeConfig) (t : String) (draft published : Option Json),
    (PreviewAction cfgs t draft published = none ↔ lookupTypeConfig cfgs t = none) ∧
    (¬PreviewAction cfgs t draft published = none →
      PreviewAction cfgs t draft published =
        some ⟨"Preview", !jsTruthyOpt draft && !jsTruthyOpt published⟩) := by
  intro cfgs t draft published
  unfold PreviewAction
  by_cases h : (lookupTypeConfig cfgs t).isSome
  · rw [if_pos h]
    constructor
    · constructor
      · intro hc; cases hc
      · intro hnone; rw [hnone] at h; cases h
    · intro _; rfl
  · rw [if_neg h]
    constructor
    · simp only [Option.not_isSome_iff_eq_none] at h
      simp [h]
    · intro hne; exact absurd rfl hne

/-- C5 amended witness: unconfigured type gives no action; configured
type with only a published document gives an enabled action. -/
theorem claim_C5_amended_witness :
    PreviewAction [⟨"page", none, none⟩] "blogPost" none none = none ∧
    PreviewAction [⟨"page", none, none⟩] "page" none (some (Json.obj [])) =
      some { label := "Preview", disabled := false } :=
  ⟨(claim_C5_amended_action_offer [⟨"page", none, none⟩] "blogPost" none none).1.mpr rfl,
   (claim_C5_amended_action_offer [⟨"page", none, none⟩] "page" none
      (some (Json.obj []))).2 (by decide)⟩

/-- C9: when the requested document type has no entry in the types
configuration, `handlePreview` only reports the configuration error: it
performs no persist, no slug resolution, no cleanup dispatch and opens
no URL. -/
theorem claim_C9_unconfigured_type_no_effects :
    ∀ (env : HandleEnv) (props : HandleProps) (fx : HandleEffects),
    lookupTypeConfig env.typeConfigs props.docType = none →
    handlePreview env props fx =
      [Event.toast "error" "Preview not configured"
        ("No preview configuration found for document type \"" ++ props.docType ++ "\"")] ∧
    (handlePreview env props fx).all
      (fun ev => !ev.isPersist && !ev.isSlugResolve && !ev.isCleanupDispatch &&
        !ev.isWindowOpen) = true := by
  intro env props fx h
  have htr : handlePreview env props fx =
      [Event.toast "error" "Preview not configured"
        ("No preview configuration found for document type \"" ++ props.docType ++ "\"")] := by
    unfold handlePreview
    rw [h]
  exact ⟨htr, by rw [htr]; rfl⟩

/-- C9 witness: a concrete request for the unconfigured type
`blogPost`. -/
theorem claim_C9_witness :
    handlePreview sampleEnv samplePropsNoCfg sampleFxOk =
      [Event.toast "error" "Preview not configured"
        ("No preview configuration found for document type \"" ++ "blogPost" ++ "\"")] ∧
    (handlePreview sampleEnv samplePropsNoCfg sampleFxOk).all
      (fun ev => !ev.isPersist && !ev.isSlugResolve && !ev.isCleanupDispatch &&
        !ev.isWindowOpen) = true :=
  claim_C9_unconfigured_type_no_effects sampleEnv samplePropsNoCfg sampleFxOk rfl

/-- C1: the built preview URL is the route resolved against the base
with exactly the two query parameters `sanity-preview-secret` and
`sanity-preview-pathname`, the pathname being `prefix + "/" + slug` for
a non-empty prefix and `"/" + slug` otherwise; the concrete example
serializes exactly as claimed (pathname percent-encoded). -/
theorem claim_C1_preview_url :
    (∀ (pu dr secret pfx slug : String),
      (buildPreviewUrl pu dr secret pfx slug).endpoint = resolveUrl pu dr ∧
      (buildPreviewUrl pu dr secret pfx slug).params =
        [("sanity-preview-secret", secret),
         ("sanity-preview-pathname",
           if pfx = "" then "/" ++ slug else pfx ++ "/" ++ slug)]) ∧
    urlToString (buildPreviewUrl "http://localhost:3000" "/api/draft" "abc123" "/blog" "hello") =
      "http://localhost:3000/api/draft?sanity-preview-secret=abc123&sanity-preview-pathname=%2Fblog%2Fhello" := by
  constructor
  · intro pu dr secret pfx slug
    refine ⟨rfl, ?_⟩
    by_cases hp : pfx = ""
    · subst hp
      rfl
    · have hbeq : (pfx == "") = false := by
        simp [hp]
      show (searchParamsSet (searchParamsSet (newURL dr pu) "sanity-preview-secret" secret)
        "sanity-preview-pathname"
        (if !(pfx == "") then pfx ++ "/" ++ slug else "/" ++ slug)).params = _
      rw [hbeq, if_neg hp]
      rfl
  · rfl

/-- C2: the slug resolver returns null for an absent document or empty
path, walks the dot-separated path failing at the first segment whose
current value is not a truthy object-like container holding the segment,
and returns the final value exactly when it is a string; the concrete
examples of the spec evaluate as claimed. -/
theorem claim_C2_slug_resolver :
    (∀ p, getSlugValue none p = none) ∧
    (∀ d, getSlugValue d "" = none) ∧
    (∀ (d : Json) (path s : String),
      getSlugValue (some d) path = some s ↔
        (¬path = "" ∧ walkPath (splitDots path) d = some (.str s))) ∧
    (∀ (p : String) (rest : List String) (v : Json),
      (v.truthy && v.isObjectLike && v.hasKey p) = false → walkPath (p :: rest) v = none) ∧
    getSlugValue (some (Json.obj [("slug", Json.obj [("current", Json.str "hello")])]))
      "slug.current" = some "hello" ∧
    getSlugValue (some (Json.obj [("slug", Json.obj [("current", Json.num 42)])]))
      "slug.current" = none ∧
    getSlugValue (some (Json.obj [])) "slug.current" = none := by
  refine ⟨fun p => rfl, ?_, ?_, ?_, rfl, rfl, rfl⟩
  · intro d
    cases d <;> rfl
  · intro d path s
    unfold getSlugValue
    by_cases hp : path = ""
    · simp [hp]
    · have hbeq : (path == "") = false := by simp [hp]
      rw [hbeq]
      simp only [Bool.false_eq_true, if_false, hp, not_false_iff, true_and]
      cases hw : walkPath (splitDots path) d with
      | none => simp
      | some v => cases v <;> simp
  · intro p rest v h
    unfold walkPath
    rw [h]
    rfl

/-- C2 witness: a non-container value fails the walk immediately, and a
string leaf found through the characterization is returned. -/
theorem claim_C2_witness :
    walkPath ["slug"] (Json.str "x") = none ∧
    getSlugValue (some (Json.obj [("a", Json.str "b")])) "a" = some "b" :=
  ⟨claim_C2_slug_resolver.2.2.2.1 "slug" [] (Json.str "x") rfl,
   (claim_C2_slug_resolver.2.2.1 (Json.obj [("a", Json.str "b")]) "a" "b").mpr
     ⟨by decide, rfl⟩⟩

/-- C3: when the persist of the secret record fails, no preview URL is
constructed, no cleanup sweep is dispatched, no URL is opened, and the
run that attempted the persist ends with the `Preview failed` error
toast carrying the failure message. -/
theorem claim_C3_persist_failure :
    ∀ (env : HandleEnv) (props : HandleProps) (fx : HandleEffects) (e : String),
    fx.persistResult = Except.error e →
    ((handlePreview env props fx).all
        (fun ev => !ev.isCleanupDispatch && !ev.isUrlBuilt && !ev.isWindowOpen) = true) ∧
    ((handlePreview env props fx).any Event.isPersist = true →
      (handlePreview env props fx).getLast? =
        some (Event.toast "error" "Preview failed" e)) := by
  intro env props fx e hpr
  rcases handlePreview_shapes env props fx with
    ⟨d, h⟩ | h | ⟨sf, r, h⟩ | ⟨sf, r, sd, e', hpr', h⟩ | ⟨sf, r, sd, u, pn, hpr', _, h⟩
  · rw [h]
    exact ⟨rfl, fun hany => by simp [Event.isPersist] at hany⟩
  · rw [h]
    exact ⟨rfl, fun hany => by simp [Event.isPersist] at hany⟩
  · rw [h]
    exact ⟨rfl, fun hany => by simp [Event.isPersist, Event.isSlugResolve] at hany⟩
  · rw [h]
    have he : e' = e := by
      rw [hpr] at hpr'
      exact (Except.error.injEq .. ▸ hpr').symm ▸ rfl
    subst he
    exact ⟨rfl, fun _ => rfl⟩
  · rw [hpr] at hpr'
    cases hpr'

/-- C3 witness: a concrete run whose persist fails with `boom`. -/
theorem claim_C3_witness :
    ((handlePreview sampleEnv sampleProps sampleFxErr).all
        (fun ev => !ev.isCleanupDispatch && !ev.isUrlBuilt && !ev.isWindowOpen) = true) ∧
    (handlePreview sampleEnv sampleProps sampleFxErr).getLast? =
      some (Event.toast "error" "Preview failed" "boom") :=
  ⟨(claim_C3_persist_failure sampleEnv sampleProps sampleFxErr "boom" rfl).1,
   (claim_C3_persist_failure sampleEnv sampleProps sampleFxErr "boom" rfl).2 (by decide)⟩

/-- C6 counterexample: in a concrete successful preview flow (the trace
opens a URL), the cleanup sweep is dispatched strictly before the
preview URL is constructed, refuting the claim that it is dispatched
only after the URL has been determined. -/
theorem claim_C6_counterexample :
    ((handlePreview sampleEnv sampleProps sampleFxOk).any Event.isWindowOpen = true) ∧
    (handlePreview sampleEnv sampleProps sampleFxOk).findIdx Event.isCleanupDispatch <
      (handlePreview sampleEnv sampleProps sampleFxOk).findIdx Event.isUrlBuilt := by
  constructor
  · decide
  · decide

/-- C6 (amended): whenever cleanup is dispatched it happens after the
secret record persist and before the preview URL is constructed, and
the orchestrator never awaits its settlement: the whole run is
independent of the cleanup delete outcome. -/
theorem claim_C6_amended_cleanup_order :
    ∀ (env : HandleEnv) (props : HandleProps) (fx : HandleEffects),
    ((handlePreview env props fx).any Event.isCleanupDispatch = true →
      (handlePreview env props fx).findIdx Event.isPersist <
        (handlePreview env props fx).findIdx Event.isCleanupDispatch ∧
      (handlePreview env props fx).findIdx Event.isCleanupDispatch <
        (handlePreview env props fx).findIdx Event.isUrlBuilt) ∧
    (∀ r, handlePreview env props { fx with cleanupDeleteResult := r } =
      handlePreview env props fx) := by
  intro env props fx
  constructor
  · intro hany
    rcases handlePreview_shapes env props fx with
      ⟨d, h⟩ | h | ⟨sf, r, h⟩ | ⟨sf, r, sd, e', hpr', h⟩ | ⟨sf, r, sd, u, pn, hpr', _, h⟩
    · rw [h] at hany; simp [Event.isCleanupDispatch] at hany
    · rw [h] at hany; simp [Event.isCleanupDispatch] at hany
    · rw [h] at hany; simp [Event.isCleanupDispatch, Event.isSlugResolve] at hany
    · rw [h] at hany
      simp [Event.isCleanupDispatch, Event.isSlugResolve, Event.isGenerateSecret,
        Event.isPersist] at hany
    · rw [h]
      refine ⟨?_, ?_⟩ <;>
        simp [List.findIdx_cons, Event.isPersist, Event.isCleanupDispatch, Event.isUrlBuilt,
          Event.isSlugResolve, Event.isGenerateSecret]
  · intro r
    cases fx
    rfl

/-- C6 amended witness: the ordering facts on a concrete successful
run. -/
theorem claim_C6_amended_witness :
    (handlePreview sampleEnv sampleProps sampleFxOk).findIdx Event.isPersist <
      (handlePreview sampleEnv sampleProps sampleFxOk).findIdx Event.isCleanupDispatch ∧
    (handlePreview sampleEnv sampleProps sampleFxOk).findIdx Event.isCleanupDispatch <
      (handlePreview sampleEnv sampleProps sampleFxOk).findIdx Event.isUrlBuilt :=
  (claim_C6_amended_cleanup_order sampleEnv sampleProps sampleFxOk).1 (by decide)

/-- C10: every successful run (one that opens a URL) invokes the secret
generator exactly once, persists exactly one record carrying that
secret, builds exactly one URL whose `sanity-preview-secret` parameter
is that same secret, and opens exactly that URL. -/
theorem claim_C10_secret_consistency :
    ∀ (env : HandleEnv) (props : HandleProps) (fx : HandleEffects),
    (handlePreview env props fx).any Event.isWindowOpen = true →
    ∃ s sd u,
      (handlePreview env props fx).filter Event.isGenerateSecret =
        [Event.generateSecret s] ∧
      (handlePreview env props fx).filter Event.isPersist = [Event.persist sd] ∧
      sd.secret = s ∧
      (handlePreview env props fx).filter Event.isUrlBuilt = [Event.urlBuilt u] ∧
      u.params.lookup "sanity-preview-secret" = some s ∧
      (handlePreview env props fx).filter Event.isWindowOpen =
        [Event.windowOpen (urlToString u)] := by
  intro env props fx hwin
  rcases handlePreview_shapes env props fx with
    ⟨d, h⟩ | h | ⟨sf, r, h⟩ | ⟨sf, r, sd, e', hpr', h⟩ | ⟨sf, r, sd, u, pn, hpr', hparams, h⟩
  · rw [h] at hwin; simp [Event.isWindowOpen] at hwin
  · rw [h] at hwin; simp [Event.isWindowOpen] at hwin
  · rw [h] at hwin; simp [Event.isWindowOpen, Event.isSlugResolve] at hwin
  · rw [h] at hwin
    simp [Event.isWindowOpen, Event.isSlugResolve, Event.isGenerateSecret,
      Event.isPersist] at hwin
  · refine ⟨sd.secret, sd, u, ?_, ?_, rfl, ?_, ?_, ?_⟩
    · rw [h]
      simp [List.filter, Event.isGenerateSecret, Event.isSlugResolve, Event.isPersist,
        Event.isCleanupDispatch, Event.isUrlBuilt, Event.isWindowOpen]
    · rw [h]
      simp [List.filter, Event.isGenerateSecret, Event.isSlugResolve, Event.isPersist,
        Event.isCleanupDispatch, Event.isUrlBuilt, Event.isWindowOpen]
    · rw [h]
      simp [List.filter, Event.isGenerateSecret, Event.isSlugResolve, Event.isPersist,
        Event.isCleanupDispatch, Event.isUrlBuilt, Event.isWindowOpen]
    · rw [hparams]
      simp [List.lookup]
    · rw [h]
      simp [List.filter, Event.isGenerateSecret, Event.isSlugResolve, Event.isPersist,
        Event.isCleanupDispatch, Event.isUrlBuilt, Event.isWindowOpen]

/-- C10 witness: the consistency facts instantiated on a concrete
successful run. -/
theorem claim_C10_witness :
    ∃ s sd u,
      (handlePreview sampleEnv sampleProps sampleFxOk).filter Event.isGenerateSecret =
        [Event.generateSecret s] ∧
      (handlePreview sampleEnv sampleProps sampleFxOk).filter Event.isPersist =
        [Event.persist sd] ∧
      sd.secret = s ∧
      (handlePreview sampleEnv sampleProps sampleFxOk).filter Event.isUrlBuilt =
        [Event.urlBuilt u] ∧
      u.params.lookup "sanity-preview-secret" = some s ∧
      (handlePreview sampleEnv sampleProps sampleFxOk).filter Event.isWindowOpen =
        [Event.windowOpen (urlToString u)] :=
  claim_C10_secret_consistency sampleEnv sampleProps sampleFxOk (by decide)

/-! ## Helper lemmas for the secret generator -/

theorem hexDigitChar_toNat_lt : ∀ n, n < 16 → (hexDigitChar n).toNat < 256 := by decide

theorem bytesToHex_toNat_lt (l : List Nat) (hb : ∀ b ∈ l, b < 256) :
    ∀ c ∈ bytesToHex l, c.toNat < 256 := by
  induction l with
  | nil => intro c hc; simp [bytesToHex] at hc
  | cons b rest ih =>
    intro c hc
    have hblt : b < 256 := hb b (by simp)
    simp only [bytesToHex, List.mem_cons] at hc
    rcases hc with h | h | h
    · subst h; exact hexDigitChar_toNat_lt _ (by omega)
    · subst h; exact hexDigitChar_toNat_lt _ (by omega)
    · exact ih (fun x hx => hb x (by simp [hx])) c h

theorem bytesToHex_length : ∀ l : List Nat, (bytesToHex l).length = 2 * l.length := by
  intro l
  induction l with
  | nil => rfl
  | cons b rest ih => simp only [bytesToHex, List.length_cons, ih]; omega

theorem b64char_replace_safe :
    ∀ n, n < 64 → isUrlSafeChar (replaceSlash (replacePlus (b64char n))) = true := by decide

/-- Base64 of a byte list whose length is `2 mod 3` is a run of
alphabet characters (URL-safe after the two replacements) followed by a
single trailing `=`. -/
theorem base64Chunks_shape :
    ∀ (l : List Nat), (∀ b ∈ l, b < 256) → l.length % 3 = 2 →
      ∃ pre, base64Chunks l = pre ++ ['='] ∧
        ∀ c ∈ pre, isUrlSafeChar (replaceSlash (replacePlus c)) = true
  | [] => by intro _ hl; simp at hl
  | [b1] => by intro _ hl; simp at hl
  | [b1, b2] => by
    intro hb _
    have h1 : b1 < 256 := hb b1 (by simp)
    have h2 : b2 < 256 := hb b2 (by simp)
    refine ⟨[b64char (b1 / 4), b64char (b1 % 4 * 16 + b2 / 16), b64char (b2 % 16 * 4)],
      rfl, ?_⟩
    intro c hc
    simp only [List.mem_cons, List.not_mem_nil, or_false] at hc
    rcases hc with h | h | h <;> subst h <;> exact b64char_replace_safe _ (by omega)
  | b1 :: b2 :: b3 :: rest => by
    intro hb hl
    have hrest : rest.length % 3 = 2 := by
      simp only [List.length_cons] at hl
      omega
    obtain ⟨pre, hpre, hsafe⟩ :=
      base64Chunks_shape rest (fun b h => hb b (by simp [h])) hrest
    have h1 : b1 < 256 := hb b1 (by simp)
    have h2 : b2 < 256 := hb b2 (by simp)
    have h3 : b3 < 256 := hb b3 (by simp)
    refine ⟨b64char (b1 / 4) :: b64char (b1 % 4 * 16 + b2 / 16) ::
      b64char (b2 % 16 * 4 + b3 / 64) :: b64char (b3 % 64) :: pre, ?_, ?_⟩
    · simp only [base64Chunks, hpre, List.cons_append]
    · intro c hc
      simp only [List.mem_cons] at hc
      rcases hc with h | h | h | h | h
      · subst h; exact b64char_replace_safe _ (by omega)
      · subst h; exact b64char_replace_safe _ (by omega)
      · subst h; exact b64char_replace_safe _ (by omega)
      · subst h; exact b64char_replace_safe _ (by omega)
      · exact hsafe c h

theorem dropWhile_of_none (l : List Char) (h : ∀ c ∈ l, (c == '=') = false) :
    l.dropWhile (fun c => c == '=') = l := by
  cases l with
  | nil => rfl
  | cons a t =>
    rw [List.dropWhile_cons]
    rw [h a (by simp)]
    simp

theorem stripTrailingEq_append (X : List Char) (h : ∀ c ∈ X, (c == '=') = false) :
    stripTrailingEq (X ++ ['=']) = X := by
  unfold stripTrailingEq
  rw [List.reverse_append]
  show ((('=' :: X.reverse).dropWhile (fun c => c == '=')).reverse) = X
  rw [List.dropWhile_cons]
  simp only [show (('=' : Char) == '=') = true from rfl, if_true]
  rw [dropWhile_of_none X.reverse (fun c hc => h c (by simpa using hc))]
  exact List.reverse_reverse X

theorem isUrlSafeChar_ne_eq (c : Char) (h : isUrlSafeChar c = true) : (c == '=') = false := by
  cases hbe : (c == '=') with
  | false => rfl
  | true =>
    have : c = '=' := eq_of_beq hbe
    subst this
    exact absurd h (by decide)

/-- C7: with a secure random source, the generator hex-encodes the 16
bytes, base64-encodes the hex string with `+`→`-` and `/`→`_` and strips
trailing `=`, and for every possible 16-byte input the output contains
only URL-safe characters (alphanumerics, `-`, `_`); without one it is
the total concatenation of the two pseudo-random base-36 fragments. -/
theorem claim_C7_secret_generator :
    ∀ (bytes f1 f2 : List Nat), bytes.length = 16 → (∀ b ∈ bytes, b < 256) →
    ((generateUrlSecret true bytes f1 f2).toList.all isUrlSafeChar = true) ∧
    generateUrlSecret false bytes f1 f2 = mathRandomFrag f1 ++ mathRandomFrag f2 := by
  intro bytes f1 f2 hlen hb
  refine ⟨?_, rfl⟩
  have hcodes : ∀ b ∈ (bytesToHex bytes).map Char.toNat, b < 256 := by
    intro b hbm
    simp only [List.mem_map] at hbm
    obtain ⟨c, hc, rfl⟩ := hbm
    exact bytesToHex_toNat_lt bytes hb c hc
  have hlen2 : ((bytesToHex bytes).map Char.toNat).length % 3 = 2 := by
    rw [List.length_map, bytesToHex_length, hlen]
  obtain ⟨pre, hpre, hsafe⟩ := base64Chunks_shape _ hcodes hlen2
  show (String.mk (stripTrailingEq
      (((base64Chunks ((bytesToHex bytes).map Char.toNat)).map replacePlus).map
        replaceSlash))).toList.all isUrlSafeChar = true
  rw [hpre, List.map_append, List.map_append]
  have heqmap : (([('=' : Char)].map replacePlus).map replaceSlash) = ['='] := rfl
  rw [heqmap]
  rw [stripTrailingEq_append]
  · show ((pre.map replacePlus).map replaceSlash).all isUrlSafeChar = true
    rw [List.all_eq_true]
    intro c hc
    simp only [List.map_map, List.mem_map, Function.comp] at hc
    obtain ⟨c0, hc0, rfl⟩ := hc
    exact hsafe c0 hc0
  · intro c hc
    simp only [List.map_map, List.mem_map, Function.comp] at hc
    obtain ⟨c0, hc0, rfl⟩ := hc
    exact isUrlSafeChar_ne_eq _ (hsafe c0 hc0)

/-- C7 witness: 16 zero bytes yield a fully URL-safe secret, and the
fallback concatenates the two fragments. -/
theorem claim_C7_witness :
    ((generateUrlSecret true (List.replicate 16 0) [10, 11] [12]).toList.all
      isUrlSafeChar = true) ∧
    generateUrlSecret false (List.replicate 16 0) [10, 11] [12] =
      mathRandomFrag [10, 11] ++ mathRandomFrag [12] :=
  claim_C7_secret_generator (List.replicate 16 0) [10, 11] [12] (by decide) (by decide)

end EasyPreview
